import Mathlib

/-!
Verification development for the import/macro-expansion engine of the
mdflow repository (`src/imports.ts`).

The TypeScript source is shallowly embedded here:

* JS strings are modelled as `List Char` (the inputs of interest are
  UTF-16-safe ASCII, where JS string indices coincide with list indices).
* The three stateful regexes (`FILE_IMPORT_PATTERN`, `URL_IMPORT_PATTERN`,
  `COMMAND_INLINE_PATTERN`) are modelled by `fileMatchAt` / `urlMatchAt` /
  `cmdMatchAt`, which decide whether a match of the corresponding regex
  starts at the head of a suffix, plus the scanner `scan` which mirrors the
  `while ((match = PATTERN.exec(text)) !== null)` loops (left-to-right,
  advancing past each match, as `lastIndex` does).
* Platform effects (the filesystem read in `Bun.file`, `fetch`,
  `Bun.spawnSync`, `JSON.parse`, `homedir()`, `process.cwd()`) are
  abstracted into an environment record `Env`; the functions of the
  engine itself are translated line by line.
* `path.resolve` / `path.dirname` (Node, posix flavour) are modelled by
  `nodeResolve` / `dirname`.
* The recursion of `expandImports` through `processFileImport` is made
  total with a fuel parameter; `none` means the fuel ran out (an artifact
  of the embedding, distinct from every behaviour of the program), and
  `some r` gives the program's result `r : Res` (ok or thrown error).
-/

/-- Whitespace per JavaScript's `\s` class and `String.prototype.trim`
(ASCII whitespace plus the Unicode space separators, line separators and
the BOM). -/
def isWS (c : Char) : Bool :=
  decide (c.toNat = 32) || decide (c.toNat = 9) || decide (c.toNat = 10) ||
  decide (c.toNat = 13) || decide (c.toNat = 11) || decide (c.toNat = 12) ||
  decide (c.toNat = 0xa0) || decide (c.toNat = 0x1680) ||
  (decide (0x2000 ≤ c.toNat) && decide (c.toNat ≤ 0x200a)) ||
  decide (c.toNat = 0x2028) || decide (c.toNat = 0x2029) ||
  decide (c.toNat = 0x202f) || decide (c.toNat = 0x205f) ||
  decide (c.toNat = 0x3000) || decide (c.toNat = 0xfeff)

/-- Longest run of non-whitespace characters at the head of a string:
the greedy `[^\s]+` (possibly empty here; the matchers require it to be
nonempty, as `+` does). -/
def takeNonWS (s : List Char) : List Char :=
  s.takeWhile (fun c => !(isWS c))

/-- JavaScript `String.prototype.trim`. -/
def jsTrim (s : List Char) : List Char :=
  ((s.dropWhile (fun c => isWS c)).reverse.dropWhile (fun c => isWS c)).reverse

/-- JavaScript `toLowerCase`, restricted to the ASCII range that the
engine's content types and URLs use. -/
def toLowerAscii (s : List Char) : List Char :=
  s.map Char.toLower

/-- One regex match, as collected by the `exec` loops in `expandImports`:
the literal matched span `full`, the first capture group `payload`, and
`match.index` in the scanned snapshot. -/
structure RMatch where
  full : List Char
  payload : List Char
  index : Nat
deriving DecidableEq, Repr

/-- Does `FILE_IMPORT_PATTERN = /@(~?[.\/][^\s]+)/` match at the head of
`s`?  Returns the matched span and the capture group.  The regex, with
backtracking: `@`, then a greedy optional `~`, then one of `.` or `/`,
then one or more non-whitespace characters. -/
def fileMatchAt : List Char → Option (List Char × List Char)
  | [] => none
  | c :: rest =>
    if c = '@' then
      match rest with
      | [] => none
      | d :: rest2 =>
        if d = '~' then
          match rest2 with
          | [] => none
          | e :: rest3 =>
            if e = '.' ∨ e = '/' then
              match takeNonWS rest3 with
              | [] => none
              | f :: run => some ('@' :: '~' :: e :: f :: run, '~' :: e :: f :: run)
            else none
        else if d = '.' ∨ d = '/' then
          match takeNonWS rest2 with
          | [] => none
          | f :: run => some ('@' :: d :: f :: run, d :: f :: run)
        else none
    else none

/-- Does `URL_IMPORT_PATTERN = /@(https?:\/\/[^\s]+)/` match at the head
of `s`? -/
def urlMatchAt : List Char → Option (List Char × List Char)
  | [] => none
  | c :: rest =>
    if c = '@' then
      if (("https://".toList)).isPrefixOf rest then
        match takeNonWS (rest.drop 8) with
        | [] => none
        | f :: run => some ('@' :: (("https://".toList) ++ f :: run), ("https://".toList) ++ f :: run)
      else if (("http://".toList)).isPrefixOf rest then
        match takeNonWS (rest.drop 7) with
        | [] => none
        | f :: run => some ('@' :: (("http://".toList) ++ f :: run), ("http://".toList) ++ f :: run)
      else none
    else none

/-- Does `COMMAND_INLINE_PATTERN` (`!` then a backtick, one or more
non-backtick characters, and a closing backtick) match at the head of
`s`? -/
def cmdMatchAt : List Char → Option (List Char × List Char)
  | [] => none
  | c :: rest =>
    if c = '!' then
      match rest with
      | [] => none
      | d :: rest2 =>
        if d = '\x60' then
          match rest2.takeWhile (fun ch => !(ch == '\x60')) with
          | [] => none
          | f :: run =>
            match rest2.drop (f :: run).length with
            | g :: _ => if g = '\x60' then some ('!' :: '\x60' :: ((f :: run) ++ ['\x60']), f :: run) else none
            | [] => none
        else none
    else none

/-- The `exec` loop: starting at offset `i`, try a match at every
position, record it and jump past it when found (mirroring `lastIndex`),
otherwise advance one character.  `fuel` is an upper bound on the number
of steps; `scan` instantiates it with the length of the text, which
suffices because every step consumes at least one character. -/
def scanFrom (matchAt : List Char → Option (List Char × List Char)) :
    Nat → List Char → Nat → List RMatch
  | 0, _, _ => []
  | Nat.succ fuel, s, i =>
    match s with
    | [] => []
    | _ :: rest =>
      match matchAt s with
      | some (full, payload) =>
        ⟨full, payload, i⟩ :: scanFrom matchAt fuel (s.drop full.length) (i + full.length)
      | none => scanFrom matchAt fuel rest (i + 1)

/-- All matches of a pattern in a text snapshot, in position order. -/
def scan (matchAt : List Char → Option (List Char × List Char)) (s : List Char) : List RMatch :=
  scanFrom matchAt s.length s 0

/-- The splice `result.slice(0, index) + replacement + result.slice(index + full.length)`. -/
def splice (s : List Char) (idx len : Nat) (rep : List Char) : List Char :=
  s.take idx ++ rep ++ s.drop (idx + len)

/-- Does a path start with `/`?  (Node `path.isAbsolute`, posix.) -/
def isAbs : List Char → Bool
  | [] => false
  | c :: _ => decide (c = '/')

/-- Split a path on `/`, as JS `path.split("/")` does (empty segments
included). -/
def splitOnSlash (s : List Char) : List (List Char) :=
  s.foldr
    (fun c acc =>
      if c = '/' then [] :: acc
      else
        match acc with
        | g :: rest => (c :: g) :: rest
        | [] => [[c]])
    [[]]

/-- Normalization of a split path, Node style: drop empty and `.`
segments, let `..` pop the previous segment; with `allowAbove` (used for
relative paths) leading `..` segments are kept, otherwise (absolute
paths) they are dropped at the root. -/
def normAux (allowAbove : Bool) : List (List Char) → List (List Char) → List (List Char)
  | [], acc => acc.reverse
  | seg :: rest, acc =>
    if seg = [] ∨ seg = ['.'] then normAux allowAbove rest acc
    else if seg = ['.', '.'] then
      match acc with
      | top :: acc2 =>
        if top = ['.', '.'] then normAux allowAbove rest (seg :: top :: acc2)
        else normAux allowAbove rest acc2
      | [] => if allowAbove then normAux allowAbove rest [seg] else normAux allowAbove rest []
    else normAux allowAbove rest (seg :: acc)

/-- Node `path.resolve(dir, rel)` (posix): take the rightmost absolute
starting point (`rel` if absolute, else `dir`, else the process working
directory `cwd`), join with `/`, and normalize. -/
def nodeResolve (cwd dir rel : List Char) : List Char :=
  let p := if isAbs rel then rel
           else if isAbs dir then dir ++ '/' :: rel
           else cwd ++ '/' :: dir ++ '/' :: rel
  let out := normAux (!(isAbs p)) (splitOnSlash p) []
  if isAbs p then '/' :: List.intercalate (['/']) out
  else
    match out with
    | [] => ['.']
    | _ => List.intercalate (['/']) out

/-- Node `path.dirname` (posix): everything before the last `/` that is
followed by a non-`/` character (index 0 excluded), with the usual root
and dot fallbacks. -/
def dirname (p : List Char) : List Char :=
  match p with
  | [] => ['.']
  | c :: rest =>
    let hasRoot := decide (c = '/')
    let r2 := ((rest.reverse.dropWhile (fun ch => ch == '/')).dropWhile (fun ch => !(ch == '/')))
    if r2 = [] then (if hasRoot = true then ['/'] else ['.'])
    else if hasRoot = true ∧ r2.length = 1 then ['/', '/']
    else p.take r2.length

/-- Result of one fetch, as the engine observes it: `response.ok`,
`response.status`, `response.statusText`, the `content-type` header
(`none` when absent) and the body text. -/
structure FetchResponse where
  ok : Bool
  status : Nat
  statusText : List Char
  contentType : Option (List Char)
  body : List Char

/-- The platform facilities used by `imports.ts`, abstracted: the
filesystem (`Bun.file(...).exists` / `.text()`, as a partial map from
resolved paths to contents), `fetch` (left `Except.error` is a thrown
network error and carries its message), `JSON.parse` success (an oracle
for well-formedness of a JSON text), `Bun.spawnSync` with a working
directory (error = process-launch failure with its message; ok = exit
code, stdout, stderr), `homedir()` and `process.cwd()`. -/
structure Env where
  fs : List Char → Option (List Char)
  fetch : List Char → Except (List Char) FetchResponse
  jsonParses : List Char → Bool
  run : List Char → List Char → Except (List Char) (Int × List Char × List Char)
  home : List Char
  cwd : List Char

/-- Outcome of the engine: the expanded text, or a thrown `Error`'s
message. -/
inductive Res where
  | ok (text : List Char)
  | err (msg : List Char)
deriving DecidableEq, Repr

/-- `expandTilde`: replace a leading `~` by the home directory when the
path starts with `~/` or is exactly `~` (the source's
`filePath.replace("~", homedir())` replaces the first occurrence of `~`,
which under the guard is the first character). -/
def expandTilde (env : Env) (filePath : List Char) : List Char :=
  if (("~/".toList)).isPrefixOf filePath || filePath == ("~".toList) then
    env.home ++ filePath.drop 1
  else filePath

/-- `resolveImportPath`: expand the tilde, keep absolute paths as-is,
resolve relative paths against the current file's directory. -/
def resolveImportPath (env : Env) (importPath currentFileDir : List Char) : List Char :=
  let expanded := expandTilde env importPath
  if isAbs expanded then expanded
  else nodeResolve env.cwd currentFileDir expanded

/-- `ALLOWED_CONTENT_TYPES`. -/
def ALLOWED_CONTENT_TYPES : List (List Char) :=
  [("text/markdown".toList), ("text/x-markdown".toList), ("text/plain".toList),
   ("application/json".toList), ("application/x-json".toList), ("text/json".toList)]

/-- `isAllowedContentType`: false on a missing (or empty, JS-falsy)
header, otherwise compare the base type — the part before `;`, trimmed
and lowercased — against the allowlist. -/
def isAllowedContentType : Option (List Char) → Bool
  | none => false
  | some ct =>
    if ct = [] then false
    else decide ((toLowerAscii (jsTrim (ct.takeWhile (fun c => !(c == ';'))))) ∈ ALLOWED_CONTENT_TYPES)

/-- Result of `inferContentType`. -/
inductive InferredType where
  | markdown
  | json
  | unknown
deriving DecidableEq, Repr

/-- `inferContentType`: JSON if the trimmed body is wrapped in braces or
brackets and `JSON.parse` succeeds; else decide by the URL extension;
else markdown if the body shows heading / list / fence markers; else
unknown. -/
def inferContentType (jsonParses : List Char → Bool) (content url : List Char) : InferredType :=
  let trimmed := jsTrim content
  if ((decide (trimmed.head? = some '\x7b') && decide (trimmed.getLast? = some '\x7d')) ||
      (decide (trimmed.head? = some '[') && decide (trimmed.getLast? = some ']'))) &&
     jsonParses trimmed then
    InferredType.json
  else
    let urlLower := toLowerAscii url
    if (".md".toList).isSuffixOf urlLower || (".markdown".toList).isSuffixOf urlLower then
      InferredType.markdown
    else if (".json".toList).isSuffixOf urlLower then
      InferredType.json
    else if decide (trimmed.head? = some '#') ||
            decide (("\n#".toList) <:+: trimmed) ||
            decide (("\n- ".toList) <:+: trimmed) ||
            decide (("\n* ".toList) <:+: trimmed) ||
            decide (("\x60\x60\x60".toList) <:+: trimmed) then
      InferredType.markdown
    else InferredType.unknown

/-- The `${contentType || "unknown"}` interpolation of the rejection
message (JS-falsy: a missing or empty header prints as `unknown`). -/
def observedType : Option (List Char) → List Char
  | none => ("unknown".toList)
  | some c => if c = [] then ("unknown".toList) else c

/-- The unsupported-content-type rejection message. -/
def unsupportedMsg (ct : Option (List Char)) (url : List Char) : List Char :=
  ("URL returned ".toList) ++ ("unsupported content type".toList) ++ (": ".toList) ++
  observedType ct ++ (". Only markdown and JSON are allowed. URL: ".toList) ++ url

/-- The wrapper the `catch` block puts around every error other than the
unsupported-content-type one. -/
def fetchFailMsg (url m : List Char) : List Char :=
  ("Failed to fetch URL: ".toList) ++ url ++ (" - ".toList) ++ m

/-- `processUrlImport`: fetch; non-ok status throws `HTTP <status>:
<statusText>` which the catch wraps; an allowed content-type header
admits the trimmed body; else infer the type, admitting markdown/JSON;
else throw the unsupported-content-type error, which the catch re-throws
unwrapped. -/
def processUrlImport (env : Env) (url : List Char) : Res :=
  match env.fetch url with
  | Except.error m => Res.err (fetchFailMsg url m)
  | Except.ok resp =>
    if resp.ok = false then
      Res.err (fetchFailMsg url (("HTTP ".toList) ++ (toString resp.status).toList ++ (": ".toList) ++ resp.statusText))
    else if isAllowedContentType resp.contentType then
      Res.ok (jsTrim resp.body)
    else if inferContentType env.jsonParses resp.body url = InferredType.markdown ∨
            inferContentType env.jsonParses resp.body url = InferredType.json then
      Res.ok (jsTrim resp.body)
    else
      Res.err (unsupportedMsg resp.contentType url)

/-- `processCommandInline`: run the command via `sh -c` in the current
file's directory; trim both streams; stderr before stdout when both are
nonempty, else whichever is nonempty, else empty (the exit code is never
consulted).  A launch failure is wrapped as `Command failed: ...`. -/
def processCommandInline (env : Env) (currentFileDir command : List Char) : Res :=
  match env.run currentFileDir command with
  | Except.error m => Res.err (("Command failed: ".toList) ++ command ++ (" - ".toList) ++ m)
  | Except.ok (_code, rawOut, rawErr) =>
    let stdout := jsTrim rawOut
    let stderr := jsTrim rawErr
    if stderr ≠ [] ∧ stdout ≠ [] then Res.ok (stderr ++ '\n' :: stdout)
    else if stdout ≠ [] then Res.ok stdout
    else Res.ok stderr

/-- The `Circular import detected` message: the chain is the stack (in
insertion order, as JS `Set` iterates) followed by the repeated path,
joined by arrows. -/
def circularMsg (stack : List (List Char)) (resolvedPath : List Char) : List Char :=
  ("Circular import detected".toList) ++ (": ".toList) ++
  List.intercalate (" -> ".toList) (stack ++ [resolvedPath])

/-- The `Import not found` message. -/
def notFoundMsg (importPath resolvedPath : List Char) : List Char :=
  ("Import not found: ".toList) ++ importPath ++ (" (resolved to ".toList) ++ resolvedPath ++ (")".toList)

/-- `processFileImport`: resolve the payload; fail if the resolved path
is already on this branch's stack; fail if the file does not exist; else
recursively expand the file's content with the file's own directory and
the stack *plus* the resolved path (`new Set(stack)` then `add` — a
fresh copy, the caller's stack is untouched).  The recursive call is
abstracted as `rec` (it is `expandImports` at one less fuel). -/
def processFileImport
    (rec : List Char → List Char → List (List Char) → Option Res)
    (env : Env) (importPath currentFileDir : List Char) (stack : List (List Char)) :
    Option Res :=
  let resolvedPath := resolveImportPath env importPath currentFileDir
  if resolvedPath ∈ stack then
    some (Res.err (circularMsg stack resolvedPath))
  else
    match env.fs resolvedPath with
    | none => some (Res.err (notFoundMsg importPath resolvedPath))
    | some content => rec content (dirname resolvedPath) (stack ++ [resolvedPath])

/-- The file-import loop of `expandImports`: process the (already
reversed) match list one at a time, splicing each replacement into the
accumulated result; the first thrown error aborts the pass. -/
def filePass
    (rec : List Char → List Char → List (List Char) → Option Res)
    (env : Env) (currentFileDir : List Char) (stack : List (List Char)) :
    List RMatch → List Char → Option Res
  | [], result => some (Res.ok result)
  | m :: rest, result =>
    match processFileImport rec env m.payload currentFileDir stack with
    | none => none
    | some (Res.err e) => some (Res.err e)
    | some (Res.ok rep) => filePass rec env currentFileDir stack rest (splice result m.index m.full.length rep)

/-- The URL-import loop of `expandImports`. -/
def urlPass (env : Env) : List RMatch → List Char → Res
  | [], result => Res.ok result
  | m :: rest, result =>
    match processUrlImport env m.payload with
    | Res.err e => Res.err e
    | Res.ok rep => urlPass env rest (splice result m.index m.full.length rep)

/-- The command-inline loop of `expandImports`. -/
def cmdPass (env : Env) (currentFileDir : List Char) : List RMatch → List Char → Res
  | [], result => Res.ok result
  | m :: rest, result =>
    match processCommandInline env currentFileDir m.payload with
    | Res.err e => Res.err e
    | Res.ok rep => cmdPass env currentFileDir rest (splice result m.index m.full.length rep)

/-- `expandImports`: scan the incoming text for file imports and process
them in reverse position order (recursing into each imported file); then
re-scan the resulting text for URL imports and process those in reverse
order; then re-scan for command inlines and process those; return the
final text.  `fuel` bounds the recursion depth of the embedding; `none`
means it was exhausted. -/
def expandImports (env : Env) : Nat → List Char → List Char → List (List Char) → Option Res
  | 0, _, _, _ => none
  | Nat.succ n, content, currentFileDir, stack =>
    match filePass (fun t d st => expandImports env n t d st) env currentFileDir stack
        ((scan fileMatchAt content).reverse) content with
    | none => none
    | some (Res.err e) => some (Res.err e)
    | some (Res.ok r1) =>
      match urlPass env ((scan urlMatchAt r1).reverse) r1 with
      | Res.err e => some (Res.err e)
      | Res.ok r2 =>
        match cmdPass env currentFileDir ((scan cmdMatchAt r2).reverse) r2 with
        | Res.err e => some (Res.err e)
        | Res.ok r3 => some (Res.ok r3)

/-- No directive of any of the three kinds occurs in the text. -/
def noDirectives (t : List Char) : Prop :=
  scan fileMatchAt t = [] ∧ scan urlMatchAt t = [] ∧ scan cmdMatchAt t = []

instance (t : List Char) : Decidable (noDirectives t) :=
  inferInstanceAs (Decidable (scan fileMatchAt t = [] ∧ scan urlMatchAt t = [] ∧ scan cmdMatchAt t = []))

/-- Modelled from the spec: the characters-per-token ratio of the budget
monitor (spec §4.5, asserted by `import-feedback.test.ts`).  The budget
monitor itself (`CHARS_PER_TOKEN`, `WARN_TOKENS`, `MAX_TOKENS` and the
threshold enforcement exported by `imports.ts`) is exercised by the
test file but missing from the source snapshot. -/
def CHARS_PER_TOKEN : Nat := 4

/-- Modelled from the spec: the warn threshold of the budget monitor. -/
def WARN_TOKENS : Nat := 50000

/-- Modelled from the spec: the hard threshold of the budget monitor. -/
def MAX_TOKENS : Nat := 100000

/-- Modelled from the spec: estimated token count of admitted content —
the character count divided by the fixed ratio. -/
def estimateTokens (chars : Nat) : Nat := chars / CHARS_PER_TOKEN

/-- Modelled from the spec: the hard-threshold failure message (the test
matches it against /exceeds the 100,000 token limit/). -/
def tokenLimitMsg (tokens : Nat) : List Char :=
  ("Content ".toList) ++ ("exceeds the 100,000 token limit".toList) ++
  (" (estimated ".toList) ++ (toString tokens).toList ++
  (" tokens). Set MA_FORCE_CONTEXT=1 to override.".toList)

/-- Outcome of the budget check: proceed (with or without the warn-path
advisory) or abort with a message. -/
inductive BudgetOutcome where
  | proceed (warned : Bool)
  | fail (msg : List Char)
deriving DecidableEq, Repr

/-- Modelled from the spec: the budget monitor's decision on the
admitted character count.  `maForceContext` is whether the
`MA_FORCE_CONTEXT` environment flag is set: it disables the hard failure
but leaves the warn behaviour unaffected (spec §4.5, §6). -/
def checkTokenBudget (maForceContext : Bool) (chars : Nat) : BudgetOutcome :=
  let tokens := estimateTokens chars
  if MAX_TOKENS < tokens ∧ maForceContext = false then BudgetOutcome.fail (tokenLimitMsg tokens)
  else if WARN_TOKENS < tokens then BudgetOutcome.proceed true
  else BudgetOutcome.proceed false

/-- The spec's wording of what a file-import payload may begin with:
`~/`, `./`, `../` or `/` (used to compare the claimed scanner behaviour
against the implemented regex). -/
def specFileStart (p : List Char) : Bool :=
  (("~/".toList)).isPrefixOf p || (("./".toList)).isPrefixOf p ||
  (("../".toList)).isPrefixOf p || (("/".toList)).isPrefixOf p

/-- An inert environment: empty filesystem, no network, a stub shell
that only knows one echo command. -/
def envD : Env :=
  { fs := fun _ => none,
    fetch := fun _ => Except.error ("network disabled".toList),
    jsonParses := fun _ => false,
    run := fun _ c =>
      if c = ("echo one two three".toList) then Except.ok (0, ("one two three\n".toList), [])
      else Except.error ("not found".toList),
    home := ("/home/u".toList),
    cwd := ("/cwd".toList) }

/-- Two mutually importing files: `/d/a.md` imports `./b.md` and
`/d/b.md` imports `./a.md`. -/
def env1 : Env :=
  { fs := fun p =>
      if p = ("/d/a.md".toList) then some ("@./b.md".toList)
      else if p = ("/d/b.md".toList) then some ("@./a.md".toList)
      else none,
    fetch := fun _ => Except.error ("network disabled".toList),
    jsonParses := fun _ => false,
    run := fun _ _ => Except.error ("spawn disabled".toList),
    home := ("/home/u".toList),
    cwd := ("/cwd".toList) }

/-- A filesystem with one plain-text file `/d/b.md`. -/
def env2 : Env :=
  { fs := fun p => if p = ("/d/b.md".toList) then some ("hello".toList) else none,
    fetch := fun _ => Except.error ("network disabled".toList),
    jsonParses := fun _ => false,
    run := fun _ _ => Except.error ("spawn disabled".toList),
    home := ("/home/u".toList),
    cwd := ("/cwd".toList) }

/-- Two remote documents: `https://e/a` answers with
`Content-Type: application/json` and a JSON body, `https://e/page` with
`Content-Type: text/html` and an HTML body. -/
def env5 : Env :=
  { fs := fun _ => none,
    fetch := fun u =>
      if u = ("https://e/a".toList) then
        Except.ok { ok := true, status := 200, statusText := ("OK".toList),
                    contentType := some ("application/json".toList),
                    body := ("\x7b\"a\":1\x7d".toList) }
      else if u = ("https://e/page".toList) then
        Except.ok { ok := true, status := 200, statusText := ("OK".toList),
                    contentType := some ("text/html".toList),
                    body := ("<p>hello</p>".toList) }
      else Except.error ("dns".toList),
    jsonParses := fun _ => false,
    run := fun _ _ => Except.error ("spawn disabled".toList),
    home := ("/home/u".toList),
    cwd := ("/cwd".toList) }

/-- A remote document whose markdown body carries a command inline, and
a shell that answers that command. -/
def envA : Env :=
  { fs := fun _ => none,
    fetch := fun u =>
      if u = ("https://e/x".toList) then
        Except.ok { ok := true, status := 200, statusText := ("OK".toList),
                    contentType := some ("text/markdown".toList),
                    body := ("run this: !\x60pwn\x60".toList) }
      else Except.error ("dns".toList),
    jsonParses := fun _ => false,
    run := fun _ c =>
      if c = ("pwn".toList) then Except.ok (0, ("owned".toList), [])
      else Except.error ("not found".toList),
    home := ("/home/u".toList),
    cwd := ("/cwd".toList) }

theorem fileMatchAt_cons_ne (c : Char) (t : List Char) (h : c ≠ '@') :
    fileMatchAt (c :: t) = none := by
  simp [fileMatchAt, h]

theorem urlMatchAt_cons_ne (c : Char) (t : List Char) (h : c ≠ '@') :
    urlMatchAt (c :: t) = none := by
  simp [urlMatchAt, h]

theorem cmdMatchAt_cons_ne (c : Char) (t : List Char) (h : c ≠ '!') :
    cmdMatchAt (c :: t) = none := by
  simp [cmdMatchAt, h]

theorem scanFrom_eq_nil
    (matchAt : List Char → Option (List Char × List Char))
    (hm : ∀ c t, c ≠ '@' → c ≠ '!' → matchAt (c :: t) = none) :
    ∀ fuel s i, (∀ ch ∈ s, ch ≠ '@' ∧ ch ≠ '!') → scanFrom matchAt fuel s i = [] := by
  intro fuel
  induction fuel with
  | zero => intro s i _; rfl
  | succ n ih =>
    intro s i hs
    cases s with
    | nil => rfl
    | cons c rest =>
      have hc := hs c (List.mem_cons_self c rest)
      have : matchAt (c :: rest) = none := hm c rest hc.1 hc.2
      simp only [scanFrom, this]
      exact ih rest (i + 1) (fun ch hch => hs ch (List.mem_cons_of_mem c hch))

theorem noDirectives_of_chars (t : List Char) (h : ∀ ch ∈ t, ch ≠ '@' ∧ ch ≠ '!') :
    noDirectives t := by
  refine ⟨?_, ?_, ?_⟩
  · exact scanFrom_eq_nil fileMatchAt (fun c s hc _ => fileMatchAt_cons_ne c s hc) t.length t 0 h
  · exact scanFrom_eq_nil urlMatchAt (fun c s hc _ => urlMatchAt_cons_ne c s hc) t.length t 0 h
  · exact scanFrom_eq_nil cmdMatchAt (fun c s _ hc => cmdMatchAt_cons_ne c s hc) t.length t 0 h

theorem expand_succ_of_noDirectives (env : Env) (n : Nat) (t dir : List Char)
    (stack : List (List Char)) (h : noDirectives t) :
    expandImports env (Nat.succ n) t dir stack = some (Res.ok t) := by
  obtain ⟨h1, h2, h3⟩ := h
  simp [expandImports, h1, h2, h3, filePass, urlPass, cmdPass]

theorem expand_of_noDirectives (env : Env) (fuel : Nat) (t dir : List Char)
    (stack : List (List Char)) (hf : 1 ≤ fuel) (h : noDirectives t) :
    expandImports env fuel t dir stack = some (Res.ok t) := by
  cases fuel with
  | zero => omega
  | succ n => exact expand_succ_of_noDirectives env n t dir stack h

theorem processFileImport_circular
    (rec : List Char → List Char → List (List Char) → Option Res)
    (env : Env) (p dir : List Char) (stack : List (List Char))
    (h : resolveImportPath env p dir ∈ stack) :
    processFileImport rec env p dir stack
      = some (Res.err (circularMsg stack (resolveImportPath env p dir))) := by
  simp [processFileImport, h]

theorem processFileImport_descend
    (rec : List Char → List Char → List (List Char) → Option Res)
    (env : Env) (p dir : List Char) (stack : List (List Char)) (content : List Char)
    (h : resolveImportPath env p dir ∉ stack)
    (hf : env.fs (resolveImportPath env p dir) = some content) :
    processFileImport rec env p dir stack
      = rec content (dirname (resolveImportPath env p dir))
          (stack ++ [resolveImportPath env p dir]) := by
  simp [processFileImport, h, hf]

theorem takeNonWS_cons (d : Char) (r : List Char) :
    takeNonWS (d :: r) = if isWS d = true then [] else d :: takeNonWS r := by
  simp only [takeNonWS, List.takeWhile_cons]
  cases h : isWS d <;> simp [h]

theorem fileMatchAt_isSome_iff (s : List Char) :
    (fileMatchAt s).isSome = true ↔
    ∃ d r, ((s = '@' :: '~' :: '.' :: d :: r ∨ s = '@' :: '~' :: '/' :: d :: r)
            ∨ (s = '@' :: '.' :: d :: r ∨ s = '@' :: '/' :: d :: r))
          ∧ isWS d = false := by
  cases s with
  | nil => simp [fileMatchAt]
  | cons c rest =>
    by_cases hc : c = '@'
    · subst hc
      cases rest with
      | nil => simp [fileMatchAt]
      | cons d rest2 =>
        by_cases hd : d = '~'
        · subst hd
          cases rest2 with
          | nil => simp [fileMatchAt]
          | cons e rest3 =>
            by_cases he : e = '.' ∨ e = '/'
            · cases rest3 with
              | nil =>
                rcases he with he | he <;> subst he <;>
                  simp [fileMatchAt, takeNonWS]
              | cons f r3 =>
                cases hw : isWS f with
                | true =>
                  rcases he with he | he <;> subst he <;>
                    simp [fileMatchAt, takeNonWS_cons, hw]
                | false =>
                  rcases he with he | he <;> subst he <;>
                    simp [fileMatchAt, takeNonWS_cons, hw]
            · have h1 : e ≠ '.' := fun h => he (Or.inl h)
              have h2 : e ≠ '/' := fun h => he (Or.inr h)
              simp [fileMatchAt, he, h1, h2]
        · by_cases he : d = '.' ∨ d = '/'
          · cases rest2 with
            | nil =>
              rcases he with he | he <;> subst he <;>
                simp [fileMatchAt, takeNonWS]
            | cons f r3 =>
              cases hw : isWS f with
              | true =>
                rcases he with he | he <;> subst he <;>
                  simp [fileMatchAt, takeNonWS_cons, hw, hd]
              | false =>
                rcases he with he | he <;> subst he <;>
                  simp [fileMatchAt, takeNonWS_cons, hw, hd]
          · have h1 : d ≠ '.' := fun h => he (Or.inl h)
            have h2 : d ≠ '/' := fun h => he (Or.inr h)
            simp [fileMatchAt, hd, h1, h2, he]
    · rw [fileMatchAt_cons_ne c rest hc]
      simp [hc, Option.isSome]

theorem urlMatchAt_isSome_iff (s : List Char) :
    (urlMatchAt s).isSome = true ↔
    ∃ d r, (s = '@' :: 'h' :: 't' :: 't' :: 'p' :: 's' :: ':' :: '/' :: '/' :: d :: r
            ∨ s = '@' :: 'h' :: 't' :: 't' :: 'p' :: ':' :: '/' :: '/' :: d :: r)
          ∧ isWS d = false := by
  cases s with
  | nil => simp [urlMatchAt]
  | cons c rest =>
    by_cases hc : c = '@'
    · subst hc
      by_cases h1 : (['h', 't', 't', 'p', 's', ':', '/', '/'] : List Char) <+: rest
      · obtain ⟨t, ht⟩ := h1
        have hdrop : ((['h', 't', 't', 'p', 's', ':', '/', '/'] : List Char) ++ t).drop 8 = t := by
          rw [show (8 : Nat) = (['h', 't', 't', 'p', 's', ':', '/', '/'] : List Char).length from rfl]
          exact List.drop_left _ _
        subst ht
        cases t with
        | nil => simp [urlMatchAt, hdrop, takeNonWS, List.isPrefixOf]
        | cons f r3 =>
          cases hw : isWS f with
          | true => simp [urlMatchAt, hdrop, takeNonWS_cons, hw, List.isPrefixOf]
          | false => simp [urlMatchAt, hdrop, takeNonWS_cons, hw, List.isPrefixOf]
      · by_cases h2 : (['h', 't', 't', 'p', ':', '/', '/'] : List Char) <+: rest
        · obtain ⟨t, ht⟩ := h2
          have hdrop : ((['h', 't', 't', 'p', ':', '/', '/'] : List Char) ++ t).drop 7 = t := by
            rw [show (7 : Nat) = (['h', 't', 't', 'p', ':', '/', '/'] : List Char).length from rfl]
            exact List.drop_left _ _
          subst ht
          have h1' : ¬ (("https://".toList)).isPrefixOf ((['h', 't', 't', 'p', ':', '/', '/'] : List Char) ++ t) = true := by
            intro hx
            apply h1
            exact List.isPrefixOf_iff_prefix.mp hx
          cases t with
          | nil => simp [urlMatchAt, h1', hdrop, takeNonWS, List.isPrefixOf]
          | cons f r3 =>
            cases hw : isWS f with
            | true => simp [urlMatchAt, h1', hdrop, takeNonWS_cons, hw, List.isPrefixOf]
            | false => simp [urlMatchAt, h1', hdrop, takeNonWS_cons, hw, List.isPrefixOf]
        · have h1' : ¬ (("https://".toList)).isPrefixOf rest = true := by
            intro hx; exact h1 (List.isPrefixOf_iff_prefix.mp hx)
          have h2' : ¬ (("http://".toList)).isPrefixOf rest = true := by
            intro hx; exact h2 (List.isPrefixOf_iff_prefix.mp hx)
          have hnone : urlMatchAt ('@' :: rest) = none := by
            simp [urlMatchAt, h1, h2]
          rw [hnone]
          simp only [Option.isSome_none, Bool.false_eq_true, false_iff, not_exists]
          intro d r
          rintro ⟨h | h, hw⟩
          · injection h with h₁ h₂
            exact h1 ⟨d :: r, by simp [h₂]⟩
          · injection h with h₁ h₂
            exact h2 ⟨d :: r, by simp [h₂]⟩
    · rw [urlMatchAt_cons_ne c rest hc]
      simp [hc, Option.isSome]

theorem nodeResolve_cwd_irrelevant (cwd1 cwd2 dir rel : List Char) (h : isAbs dir = true) :
    nodeResolve cwd1 dir rel = nodeResolve cwd2 dir rel := by
  unfold nodeResolve
  cases hr : isAbs rel <;> simp [hr, h]

/-- C9: for every input text containing no file-import, URL-import, or
command-inline directive, `expandImports` returns the input unchanged —
expansion is the identity transform on directive-free text. -/
theorem c9_identity_on_directive_free (env : Env) (fuel : Nat) (t dir : List Char)
    (stack : List (List Char)) (hf : 1 ≤ fuel) (h : noDirectives t) :
    expandImports env fuel t dir stack = some (Res.ok t) :=
  expand_of_noDirectives env fuel t dir stack hf h

theorem c9_witness :
    1 ≤ 1 ∧ noDirectives (("plain text, no directives here.".toList)) ∧
    expandImports envD 1 (("plain text, no directives here.".toList)) (("/d".toList)) []
      = some (Res.ok (("plain text, no directives here.".toList))) :=
  ⟨by decide, by decide,
   c9_identity_on_directive_free envD 1 (("plain text, no directives here.".toList))
     (("/d".toList)) [] (by decide) (by decide)⟩

/-- C2: the resolution stack is a value, not shared state — the stack
given to `expandImports` is passed unchanged to every sibling
file-import of a pass, and the resolved path is added only to the copy
handed to the nested call (`processFileImport` recurses with
`stack ++ [resolvedPath]`, leaving `stack` itself untouched).
Consequently a document importing the same file twice as siblings is not
flagged as circular: here, for any environment, any starting stack not
already containing the resolved path, and any directive-free file
content `c`, the document `@./b.md and @./b.md` expands successfully to
two independent copies of `c`. -/
theorem c2_sibling_imports_not_circular (env : Env) (n : Nat) (dir : List Char)
    (stack : List (List Char)) (c : List Char)
    (hs : resolveImportPath env (("./b.md".toList)) dir ∉ stack)
    (hf : env.fs (resolveImportPath env (("./b.md".toList)) dir) = some c)
    (hc : ∀ ch ∈ c, ch ≠ '@' ∧ ch ≠ '!') :
    expandImports env (n + 2) (("@./b.md and @./b.md".toList)) dir stack
      = some (Res.ok (c ++ ((" and ".toList)) ++ c)) := by
  have hscan : (scan fileMatchAt (("@./b.md and @./b.md".toList))).reverse
      = [⟨("@./b.md".toList), ("./b.md".toList), 12⟩, ⟨("@./b.md".toList), ("./b.md".toList), 0⟩] := by
    decide
  have h1 : processFileImport (fun t d st => expandImports env (n + 1) t d st) env
      (("./b.md".toList)) dir stack = some (Res.ok c) := by
    rw [processFileImport_descend _ env _ dir stack c hs hf]
    exact expand_succ_of_noDirectives env n c _ _ (noDirectives_of_chars c hc)
  have t1 : List.take 12 (("@./b.md and @./b.md".toList)) = ("@./b.md and ".toList) := by decide
  have t2 : List.drop 19 (("@./b.md and @./b.md".toList)) = [] := by decide
  have hsp1 : splice (("@./b.md and @./b.md".toList)) 12 7 c = ("@./b.md and ".toList) ++ c := by
    simp [splice, t1, t2]
  have hdrop : List.drop 7 ((("@./b.md and ".toList)) ++ c) = ((" and ".toList)) ++ c := by
    rw [show ("@./b.md and ".toList) = ("@./b.md".toList) ++ (" and ".toList) from rfl, List.append_assoc]
    rw [show (7 : Nat) = (("@./b.md".toList)).length from rfl]
    exact List.drop_left _ _
  have hsp2 : splice ((("@./b.md and ".toList)) ++ c) 0 7 c = c ++ ((" and ".toList)) ++ c := by
    simp [splice, hdrop]
  have hnd : noDirectives (c ++ ((" and ".toList)) ++ c) := by
    apply noDirectives_of_chars
    intro ch hch
    rcases List.mem_append.mp hch with h | h
    · rcases List.mem_append.mp h with h | h
      · exact hc ch h
      · have h' : ch ∈ ([' ', 'a', 'n', 'd', ' '] : List Char) := h
        fin_cases h' <;> exact ⟨by decide, by decide⟩
    · exact hc ch h
  have hlen : (("@./b.md".toList)).length = 7 := by decide
  show expandImports env (Nat.succ (n + 1)) (("@./b.md and @./b.md".toList)) dir stack = _
  rw [expandImports, hscan]
  simp only [filePass, h1, hlen, hsp1, hsp2]
  rw [hnd.2.1]
  simp only [List.reverse_nil, urlPass]
  rw [hnd.2.2]
  simp only [List.reverse_nil, cmdPass]

theorem c2_witness :
    resolveImportPath env2 (("./b.md".toList)) (("/d".toList)) ∉ ([] : List (List Char)) ∧
    env2.fs (resolveImportPath env2 (("./b.md".toList)) (("/d".toList))) = some (("hello".toList)) ∧
    expandImports env2 2 (("@./b.md and @./b.md".toList)) (("/d".toList)) []
      = some (Res.ok ((("hello".toList)) ++ ((" and ".toList)) ++ (("hello".toList)))) :=
  ⟨by decide, by decide,
   c2_sibling_imports_not_circular env2 0 (("/d".toList)) [] (("hello".toList))
     (by decide) (by decide) (by decide)⟩

/-- C1: whenever a file-import payload resolves to a path already on the
current branch's stack, the pass fails right there with a
`Circular import detected` error naming the full chain — the existing
stack entries followed by the repeated path — and none of the remaining
directives of that pass (`rest`) are processed; and, concretely, the
two-file mutual reference of `env1` (A imports B, B imports A) fails
exactly this way. -/
theorem c1_circular_import_detected :
    (∀ (rec : List Char → List Char → List (List Char) → Option Res) (env : Env)
       (p full dir : List Char) (i : Nat) (stack : List (List Char)) (rest : List RMatch) (r : List Char),
       resolveImportPath env p dir ∈ stack →
       filePass rec env dir stack (⟨full, p, i⟩ :: rest) r
           = some (Res.err (circularMsg stack (resolveImportPath env p dir)))
         ∧ (("Circular import detected".toList)) <:+: circularMsg stack (resolveImportPath env p dir))
    ∧ expandImports env1 3 (("@./a.md".toList)) (("/d".toList)) []
        = some (Res.err (circularMsg [("/d/a.md".toList), ("/d/b.md".toList)] (("/d/a.md".toList))))
    ∧ (("Circular import detected".toList)) <:+:
        circularMsg [("/d/a.md".toList), ("/d/b.md".toList)] (("/d/a.md".toList)) := by
  refine ⟨?_, by rfl, by decide⟩
  intro rec env p full dir i stack rest r h
  constructor
  · simp only [filePass]
    rw [processFileImport_circular rec env p dir stack h]
  · exact ⟨[], (": ".toList) ++ List.intercalate ((" -> ".toList)) (stack ++ [resolveImportPath env p dir]),
      by simp [circularMsg]⟩

theorem c1_witness :
    resolveImportPath env1 (("./a.md".toList)) (("/d".toList)) ∈ [("/d/a.md".toList)] ∧
    filePass (fun _ _ _ => none) env1 (("/d".toList)) [("/d/a.md".toList)]
        [⟨("@./a.md".toList), ("./a.md".toList), 0⟩] (("@./a.md".toList))
      = some (Res.err (circularMsg [("/d/a.md".toList)]
          (resolveImportPath env1 (("./a.md".toList)) (("/d".toList))))) :=
  ⟨by decide,
   (c1_circular_import_detected.1 (fun _ _ _ => none) env1 (("./a.md".toList)) (("@./a.md".toList))
     (("/d".toList)) 0 [("/d/a.md".toList)] [] (("@./a.md".toList)) (by decide)).1⟩

/-- C3: a payload starting with `~/` has the shorthand replaced by the
home directory; a payload that is (or, after tilde expansion, becomes)
absolute is used as-is; every other payload is resolved against
the importing file's own directory — `path.resolve(currentFileDir, ...)`,
whose result does not depend on the process working directory once that
directory is absolute — and on each recursive descent the importing
directory handed to the nested expansion is `dirname` of the resolved
path. -/
theorem c3_import_path_resolution :
    (∀ (env : Env) (p : List Char), (("~/".toList)).isPrefixOf p = true →
       expandTilde env p = env.home ++ p.drop 1)
    ∧ (∀ (env : Env) (p dir : List Char), isAbs (expandTilde env p) = true →
       resolveImportPath env p dir = expandTilde env p)
    ∧ (∀ (env : Env) (p dir : List Char), isAbs (expandTilde env p) = false →
       resolveImportPath env p dir = nodeResolve env.cwd dir (expandTilde env p))
    ∧ (∀ (cwd1 cwd2 dir rel : List Char), isAbs dir = true →
       nodeResolve cwd1 dir rel = nodeResolve cwd2 dir rel)
    ∧ (∀ (rec : List Char → List Char → List (List Char) → Option Res) (env : Env)
         (p dir : List Char) (stack : List (List Char)) (content : List Char),
       resolveImportPath env p dir ∉ stack →
       env.fs (resolveImportPath env p dir) = some content →
       processFileImport rec env p dir stack
         = rec content (dirname (resolveImportPath env p dir))
             (stack ++ [resolveImportPath env p dir])) := by
  refine ⟨?_, ?_, ?_, ?_, ?_⟩
  · intro env p h
    have h' : (['~', '/'] : List Char) <+: p := List.isPrefixOf_iff_prefix.mp h
    simp [expandTilde, h']
  · intro env p dir h
    simp [resolveImportPath, h]
  · intro env p dir h
    simp [resolveImportPath, h]
  · intro cwd1 cwd2 dir rel h
    exact nodeResolve_cwd_irrelevant cwd1 cwd2 dir rel h
  · intro rec env p dir stack content h hf
    exact processFileImport_descend rec env p dir stack content h hf

theorem c3_witness :
    expandTilde envD (("~/x.md".toList)) = envD.home ++ ((("~/x.md".toList)).drop 1) ∧
    resolveImportPath envD (("/abs/x.md".toList)) (("/d".toList)) = expandTilde envD (("/abs/x.md".toList)) ∧
    resolveImportPath envD (("./x.md".toList)) (("/d".toList))
      = nodeResolve envD.cwd (("/d".toList)) (expandTilde envD (("./x.md".toList))) ∧
    nodeResolve (("/cwd1".toList)) (("/d".toList)) (("./x.md".toList))
      = nodeResolve (("/cwd2".toList)) (("/d".toList)) (("./x.md".toList)) ∧
    processFileImport (fun _ _ _ => some (Res.ok [])) env2 (("./b.md".toList)) (("/d".toList)) []
      = some (Res.ok []) :=
  ⟨c3_import_path_resolution.1 envD (("~/x.md".toList)) (by decide),
   c3_import_path_resolution.2.1 envD (("/abs/x.md".toList)) (("/d".toList)) (by decide),
   c3_import_path_resolution.2.2.1 envD (("./x.md".toList)) (("/d".toList)) (by decide),
   c3_import_path_resolution.2.2.2.1 (("/cwd1".toList)) (("/cwd2".toList)) (("/d".toList))
     (("./x.md".toList)) (by decide),
   c3_import_path_resolution.2.2.2.2 (fun _ _ _ => some (Res.ok [])) env2 (("./b.md".toList))
     (("/d".toList)) [] (("hello".toList)) (by decide) (by decide)⟩

theorem unsupportedMsg_has_pat (ct : Option (List Char)) (url : List Char) :
    (("unsupported content type".toList)) <:+: unsupportedMsg ct url :=
  ⟨("URL returned ".toList),
   (": ".toList) ++ observedType ct ++ ((". Only markdown and JSON are allowed. URL: ".toList)) ++ url,
   by simp [unsupportedMsg]⟩

theorem unsupportedMsg_has_type (ct : Option (List Char)) (url : List Char) :
    observedType ct <:+: unsupportedMsg ct url :=
  ⟨("URL returned ".toList) ++ (("unsupported content type".toList)) ++ (": ".toList),
   ((". Only markdown and JSON are allowed. URL: ".toList)) ++ url,
   by simp [unsupportedMsg]⟩

theorem unsupportedMsg_has_url (ct : Option (List Char)) (url : List Char) :
    url <:+: unsupportedMsg ct url :=
  ⟨("URL returned ".toList) ++ (("unsupported content type".toList)) ++ (": ".toList) ++
     observedType ct ++ ((". Only markdown and JSON are allowed. URL: ".toList)),
   [],
   by simp [unsupportedMsg]⟩

theorem tokenLimitMsg_has_pat (tokens : Nat) :
    (("exceeds the 100,000 token limit".toList)) <:+: tokenLimitMsg tokens :=
  ⟨("Content ".toList),
   (" (estimated ".toList) ++ (toString tokens).toList ++ ((" tokens). Set MA_FORCE_CONTEXT=1 to override.".toList)),
   by simp [tokenLimitMsg]⟩

/-- C5: URL admission is decided in order — a present allowed
content-type header admits the trimmed body at once; otherwise the type
is inferred from body and URL, and when the inference yields neither
markdown nor JSON the import fails with an error that contains
`unsupported content type` and names the observed type and the URL.  In
particular (`env5`) a response with `Content-Type: application/json` and
body `{"a":1}` is admitted verbatim, and one with
`Content-Type: text/html` and an HTML body is rejected with the
unsupported-content-type error. -/
theorem c5_url_admission_order :
    (∀ (env : Env) (url : List Char) (resp : FetchResponse),
       env.fetch url = Except.ok resp → resp.ok = true →
       isAllowedContentType resp.contentType = true →
       processUrlImport env url = Res.ok (jsTrim resp.body))
    ∧ (∀ (env : Env) (url : List Char) (resp : FetchResponse),
       env.fetch url = Except.ok resp → resp.ok = true →
       isAllowedContentType resp.contentType = false →
       inferContentType env.jsonParses resp.body url = InferredType.unknown →
       processUrlImport env url = Res.err (unsupportedMsg resp.contentType url)
         ∧ (("unsupported content type".toList)) <:+: unsupportedMsg resp.contentType url
         ∧ observedType resp.contentType <:+: unsupportedMsg resp.contentType url
         ∧ url <:+: unsupportedMsg resp.contentType url)
    ∧ processUrlImport env5 (("https://e/a".toList)) = Res.ok (("\x7b\"a\":1\x7d".toList))
    ∧ processUrlImport env5 (("https://e/page".toList))
        = Res.err (unsupportedMsg (some (("text/html".toList))) (("https://e/page".toList)))
    ∧ (("unsupported content type".toList)) <:+:
        unsupportedMsg (some (("text/html".toList))) (("https://e/page".toList)) := by
  refine ⟨?_, ?_, by rfl, by rfl, unsupportedMsg_has_pat _ _⟩
  · intro env url resp hfetch hok hct
    simp [processUrlImport, hfetch, hok, hct]
  · intro env url resp hfetch hok hct hinf
    refine ⟨?_, unsupportedMsg_has_pat _ _, unsupportedMsg_has_type _ _, unsupportedMsg_has_url _ _⟩
    simp [processUrlImport, hfetch, hok, hct, hinf]

theorem c5_witness :
    env5.fetch (("https://e/a".toList))
      = Except.ok { ok := true, status := 200, statusText := ("OK".toList),
                    contentType := some ("application/json".toList),
                    body := ("\x7b\"a\":1\x7d".toList) } ∧
    isAllowedContentType (some ("application/json".toList)) = true ∧
    processUrlImport env5 (("https://e/a".toList)) = Res.ok (jsTrim (("\x7b\"a\":1\x7d".toList))) :=
  ⟨by rfl, by decide,
   c5_url_admission_order.1 env5 (("https://e/a".toList))
     { ok := true, status := 200, statusText := ("OK".toList),
       contentType := some ("application/json".toList),
       body := ("\x7b\"a\":1\x7d".toList) }
     (by rfl) (by rfl) (by decide)⟩

/-- C6: the budget monitor (modelled from the spec — the thresholds and
enforcement are exported by `imports.ts` per `import-feedback.test.ts`
but are absent from the source snapshot) estimates tokens as the
admitted character count divided by 4; crossing the 100,000-token hard
threshold without the `MA_FORCE_CONTEXT` override aborts with an error
containing `exceeds the 100,000 token limit`; with the override set it
never aborts; crossing only the 50,000-token warn threshold yields a
warning but proceeds. -/
theorem c6_token_budget :
    CHARS_PER_TOKEN = 4 ∧ WARN_TOKENS = 50000 ∧ MAX_TOKENS = 100000
    ∧ (∀ chars : Nat, estimateTokens chars = chars / 4)
    ∧ (∀ chars : Nat, MAX_TOKENS < estimateTokens chars →
         checkTokenBudget false chars = BudgetOutcome.fail (tokenLimitMsg (estimateTokens chars))
         ∧ (("exceeds the 100,000 token limit".toList)) <:+: tokenLimitMsg (estimateTokens chars))
    ∧ (∀ (chars : Nat) (m : List Char), checkTokenBudget true chars ≠ BudgetOutcome.fail m)
    ∧ (∀ chars : Nat, WARN_TOKENS < estimateTokens chars → estimateTokens chars ≤ MAX_TOKENS →
         checkTokenBudget false chars = BudgetOutcome.proceed true) := by
  refine ⟨rfl, rfl, rfl, fun chars => rfl, ?_, ?_, ?_⟩
  · intro chars h
    exact ⟨by simp [checkTokenBudget, h], tokenLimitMsg_has_pat _⟩
  · intro chars m
    simp only [checkTokenBudget]
    split
    · simp_all
    · split <;> simp
  · intro chars h1 h2
    have h3 : ¬ MAX_TOKENS < estimateTokens chars := by omega
    simp [checkTokenBudget, h3, h1]

theorem c6_witness :
    MAX_TOKENS < estimateTokens 500000 ∧
    checkTokenBudget false 500000 = BudgetOutcome.fail (tokenLimitMsg (estimateTokens 500000)) ∧
    (("exceeds the 100,000 token limit".toList)) <:+: tokenLimitMsg (estimateTokens 500000) ∧
    checkTokenBudget true 500000 ≠ BudgetOutcome.fail (tokenLimitMsg 125000) ∧
    checkTokenBudget false 250000 = BudgetOutcome.proceed true :=
  ⟨by decide,
   (c6_token_budget.2.2.2.2.1 500000 (by decide)).1,
   (c6_token_budget.2.2.2.2.1 500000 (by decide)).2,
   c6_token_budget.2.2.2.2.2.1 500000 (tokenLimitMsg 125000),
   c6_token_budget.2.2.2.2.2.2 250000 (by decide) (by decide)⟩

/-- C7: for a successfully launched command the combined result is —
stderr (trimmed) then a newline then stdout (trimmed) when both streams
produced output; the single trimmed stream when only one did; the empty
string when neither did — and it does not depend on the exit code (the
code is quantified and never constrains the result).  Only a
process-launch failure raises an error, wrapped as `Command failed`. -/
theorem c7_command_output_combination :
    (∀ (env : Env) (dir cmd : List Char) (code : Int) (out err : List Char),
       env.run dir cmd = Except.ok (code, out, err) →
       (jsTrim err ≠ [] → jsTrim out ≠ [] →
          processCommandInline env dir cmd = Res.ok (jsTrim err ++ '\n' :: jsTrim out))
       ∧ (jsTrim err = [] → processCommandInline env dir cmd = Res.ok (jsTrim out))
       ∧ (jsTrim out = [] → processCommandInline env dir cmd = Res.ok (jsTrim err)))
    ∧ (∀ (env : Env) (dir cmd m : List Char),
       env.run dir cmd = Except.error m →
       processCommandInline env dir cmd
           = Res.err ((("Command failed: ".toList)) ++ cmd ++ ((" - ".toList)) ++ m)
         ∧ (("Command failed".toList)) <:+:
             (("Command failed: ".toList)) ++ cmd ++ ((" - ".toList)) ++ m) := by
  constructor
  · intro env dir cmd code out err hrun
    refine ⟨?_, ?_, ?_⟩
    · intro he ho
      simp [processCommandInline, hrun, he, ho]
    · intro he
      simp only [processCommandInline, hrun, he]
      split
      · simp_all
      · split
        · rfl
        · simp_all
    · intro ho
      simp only [processCommandInline, hrun, ho]
      split
      · simp_all
      · split
        · simp_all
        · rfl
  · intro env dir cmd m hrun
    refine ⟨by simp [processCommandInline, hrun], ?_⟩
    exact ⟨[], (": ".toList) ++ cmd ++ ((" - ".toList)) ++ m,
      by simp [show ("Command failed: ".toList) = ("Command failed".toList) ++ (": ".toList) from rfl]⟩

theorem c7_witness :
    envD.run (("/d".toList)) (("echo one two three".toList))
      = Except.ok (0, ("one two three\n".toList), []) ∧
    jsTrim ([] : List Char) = [] ∧
    processCommandInline envD (("/d".toList)) (("echo one two three".toList))
      = Res.ok (("one two three".toList)) :=
  ⟨by rfl, by rfl,
   (c7_command_output_combination.1 envD (("/d".toList)) (("echo one two three".toList))
     0 (("one two three\n".toList)) [] (by rfl)).2.1 (by rfl)⟩

/-- C8 counterexample: the file-import pattern matches `@.bashrc`
(optional `~`, then `.` or `/`, then non-whitespace), although its
payload `.bashrc` starts with none of the spec's four prefixes `~/`,
`./`, `../`, `/` — so the scanner does not match "exactly when" the
payload starts with one of those. -/
theorem c8_counterexample :
    fileMatchAt (("@.bashrc".toList)) = some ((("@.bashrc".toList)), ((".bashrc".toList)))
    ∧ specFileStart ((".bashrc".toList)) = false :=
  ⟨by rfl, by rfl⟩

/-- C8 (amended): the scanner matches a file import exactly when `@` is
immediately followed by an optional `~`, then `.` or `/`, then at least
one non-whitespace character (this covers `~/`, `./`, `../`, `/` but
also e.g. `.bashrc`); it matches a URL import exactly when `@` is
immediately followed by `http://` or `https://` and at least one
further non-whitespace character; a bare email-like token such as
`user@example.com` matches neither pattern and is left unaltered by
expansion. -/
theorem c8_amended_scanner_shapes :
    (∀ s : List Char, (fileMatchAt s).isSome = true ↔
       ∃ d r, ((s = '@' :: '~' :: '.' :: d :: r ∨ s = '@' :: '~' :: '/' :: d :: r)
               ∨ (s = '@' :: '.' :: d :: r ∨ s = '@' :: '/' :: d :: r))
             ∧ isWS d = false)
    ∧ (∀ s : List Char, (urlMatchAt s).isSome = true ↔
       ∃ d r, (s = '@' :: 'h' :: 't' :: 't' :: 'p' :: 's' :: ':' :: '/' :: '/' :: d :: r
               ∨ s = '@' :: 'h' :: 't' :: 't' :: 'p' :: ':' :: '/' :: '/' :: d :: r)
             ∧ isWS d = false)
    ∧ (∀ (env : Env) (fuel : Nat) (dir : List Char) (stack : List (List Char)),
       1 ≤ fuel →
       expandImports env fuel (("user@example.com".toList)) dir stack
         = some (Res.ok (("user@example.com".toList)))) := by
  refine ⟨fileMatchAt_isSome_iff, urlMatchAt_isSome_iff, ?_⟩
  intro env fuel dir stack hf
  exact expand_of_noDirectives env fuel (("user@example.com".toList)) dir stack hf (by decide)

theorem c8_witness :
    (fileMatchAt (("@./a".toList))).isSome = true ∧
    (urlMatchAt (("@https://e".toList))).isSome = true ∧
    expandImports envD 1 (("user@example.com".toList)) (("/d".toList)) []
      = some (Res.ok (("user@example.com".toList))) :=
  ⟨(c8_amended_scanner_shapes.1 (("@./a".toList))).mpr ⟨'/', ['a'], Or.inr (Or.inl (by decide)), by decide⟩,
   (c8_amended_scanner_shapes.2.1 (("@https://e".toList))).mpr ⟨'e', [], Or.inl (by decide), by decide⟩,
   c8_amended_scanner_shapes.2.2 envD 1 (("/d".toList)) [] (by decide)⟩

/-- C10: the URL-import pass splices fetched bodies into the text before
the command-inline pass scans that same text, so a command inline that
occurs only inside a fetched body is executed during the same top-level
expansion: with `envA` the input `@https://e/x` contains no command
inline, the fetched markdown body contains `` !`pwn` ``, and the
expansion's result is the output of running `pwn`. -/
theorem c10_url_body_command_executed :
    expandImports envA 1 (("@https://e/x".toList)) (("/d".toList)) []
      = some (Res.ok (("run this: owned".toList)))
    ∧ scan cmdMatchAt (("@https://e/x".toList)) = [] :=
  ⟨by rfl, by decide⟩
